import Mathlib

/-!
Shallow embedding of `python/src/filesystem.rs` (delta-rs python bindings):
the PyArrow-facing filesystem adapter over an object store.  Machine
integers (`i64`) are modelled as `Int`; Python / object-store errors are
modelled by explicit error types and `Except`; calls into the underlying
store or writer are modelled by oracle records giving each call's outcome,
plus explicit call traces where a claim speaks about which backend calls
are issued.  A Rust `unwrap()` (panic on `Err`) is modelled by `Option`
with `none` standing for the panic.
-/

/-- Python-level errors raised by the binding layer.
`ioError` models `PyIOError::new_err`, `valueError` models
`PyValueError::new_err`, `deltaIo` models `PyDeltaTableError::from_io`,
and `deltaStore` models `PyDeltaTableError::from_object_store`. -/
inductive PyErr where
  | ioError (msg : String)
  | valueError (msg : String)
  | deltaIo (msg : String)
  | deltaStore (msg : String)
deriving DecidableEq, Repr

/-- Errors of the underlying object store (`ObjectStoreError`): only the
variants the embedded code distinguishes. -/
inductive StoreErr where
  | notFound (path : String)
  | other (msg : String)
deriving DecidableEq, Repr

/-- State of `ObjectInputFile` (fields `store`, `path` and the constant
`mode = "rb"` are omitted: the store is passed separately where needed). -/
structure ObjectInputFile where
  content_length : Int
  closed : Bool
  pos : Int
deriving DecidableEq, Repr

/-- `ObjectInputFile::check_closed`. -/
def ObjectInputFile.check_closed (f : ObjectInputFile) : Except PyErr Unit :=
  if f.closed then Except.error (PyErr.ioError ("Operation on closed stream"))
  else Except.ok ()

/-- `ObjectInputFile::check_position`: validates a position value,
rejecting negatives and values past `content_length`. -/
def ObjectInputFile.check_position (f : ObjectInputFile) (position : Int) (action : String) :
    Except PyErr Unit :=
  if position < 0 then
    Except.error (PyErr.ioError ("Cannot " ++ action ++ " for negative position."))
  else if position > f.content_length then
    Except.error (PyErr.ioError ("Cannot " ++ action ++ " past end of file."))
  else Except.ok ()

/-- `ObjectInputFile::seek`.  Mirrors the Rust exactly: after the closed
check it calls `check_position` on the OFFSET ARGUMENT (not on the
resulting position), then dispatches on `whence`, returning the new
position. -/
def ObjectInputFile.seek (f : ObjectInputFile) (offset whence : Int) :
    Except PyErr (ObjectInputFile × Int) :=
  match f.check_closed with
  | Except.error e => Except.error e
  | Except.ok _ =>
    match f.check_position offset ("seek") with
    | Except.error e => Except.error e
    | Except.ok _ =>
      if whence = 0 then
        Except.ok ({ f with pos := offset }, offset)
      else if whence = 1 then
        Except.ok ({ f with pos := f.pos + offset }, f.pos + offset)
      else if whence = 2 then
        Except.ok ({ f with pos := f.content_length + offset }, f.content_length + offset)
      else
        Except.error (PyErr.valueError ("'whence' must be between  0 <= whence <= 2."))

/-- Result of `ObjectInputFile::read`: the updated handle, the byte range
`[fetchStart, fetchEnd)` of the single `get_range` request, and the number
of bytes returned (`fetchEnd - fetchStart`; the Rust issues the range
request only when this is positive, returning empty bytes otherwise). -/
structure ReadResult where
  file : ObjectInputFile
  fetchStart : Int
  fetchEnd : Int
  nbytes : Int
deriving DecidableEq, Repr

/-- `ObjectInputFile::read`.  The `usize` casts in the Rust are modelled
by `Int` arithmetic, exact whenever `0 ≤ pos ≤ content_length` and the
requested length is nonnegative. -/
def ObjectInputFile.read (f : ObjectInputFile) (nbytes : Option Int) : Except PyErr ReadResult :=
  match f.check_closed with
  | Except.error e => Except.error e
  | Except.ok _ =>
    let range : Int × Int :=
      match nbytes with
      | some len => (f.pos, min (f.pos + len) f.content_length)
      | none => (f.pos, f.content_length)
    let n : Int := range.2 - range.1
    Except.ok
      { file := { f with pos := f.pos + n }
        fetchStart := range.1
        fetchEnd := range.2
        nbytes := n }

/-- C1: the claim says `seek(offset, current)` may take a negative offset
whenever the resulting position stays in `[0, content_length]`, and that
any resulting position outside that interval fails.  The code instead
validates the OFFSET ARGUMENT: at `content_length = 4`, `pos = 2`,
`seek(-1, current)` (claimed result 1) is rejected as a negative
position, `seek(-1, end)` (claimed result 3) is likewise rejected, and
`seek(3, current)` succeeds returning position 5 > content_length, which
the claim says must fail.  This contradicts the code's own comments
("offset may be negative" for `whence = 1/2`). -/
theorem seek_validates_offset_not_result :
    ObjectInputFile.seek ⟨4, false, 2⟩ (-1) 1 =
      Except.error (PyErr.ioError ("Cannot seek for negative position.")) ∧
    ObjectInputFile.seek ⟨4, false, 2⟩ (-1) 2 =
      Except.error (PyErr.ioError ("Cannot seek for negative position.")) ∧
    ObjectInputFile.seek ⟨4, false, 2⟩ 3 1 = Except.ok (⟨4, false, 5⟩, 5) := by
  refine ⟨rfl, rfl, rfl⟩

/-- The exclusive end of the range `ObjectInputFile::read` requests. -/
def readEnd (f : ObjectInputFile) : Option Int → Int
  | some len => min (f.pos + len) f.content_length
  | none => f.content_length

/-- Evaluation lemma for `ObjectInputFile.read` on an open handle. -/
theorem read_eq (f : ObjectInputFile) (hcl : f.closed = false) (nb : Option Int) :
    f.read nb = Except.ok
      { file := { f with pos := f.pos + (readEnd f nb - f.pos) }
        fetchStart := f.pos
        fetchEnd := readEnd f nb
        nbytes := readEnd f nb - f.pos } := by
  cases nb <;> simp [ObjectInputFile.read, ObjectInputFile.check_closed, hcl, readEnd]

/-- C6: `read n` on an open handle with `0 ≤ pos ≤ content_length` and
`0 ≤ n` succeeds, issuing a single range fetch starting at the cursor for
exactly `min n (content_length - pos)` bytes and advancing the cursor by
that amount; `read` with `n` omitted fetches `content_length - pos` bytes
up to the end; and at `pos = content_length` (handle `g`) the result is
zero bytes (empty result), not an error. -/
theorem read_clamps_and_advances (f g : ObjectInputFile) (n : Int)
    (hcl : f.closed = false) (h0 : 0 ≤ f.pos) (hN : f.pos ≤ f.content_length) (hn : 0 ≤ n)
    (hgcl : g.closed = false) (hge : g.pos = g.content_length) :
    f.read (some n) = Except.ok
      { file := { f with pos := f.pos + min n (f.content_length - f.pos) }
        fetchStart := f.pos
        fetchEnd := f.pos + min n (f.content_length - f.pos)
        nbytes := min n (f.content_length - f.pos) } ∧
    f.read none = Except.ok
      { file := { f with pos := f.content_length }
        fetchStart := f.pos
        fetchEnd := f.content_length
        nbytes := f.content_length - f.pos } ∧
    g.read (some n) = Except.ok
      { file := g, fetchStart := g.pos, fetchEnd := g.pos, nbytes := 0 } := by
  refine ⟨?_, ?_, ?_⟩
  · rw [read_eq f hcl]
    have hE : readEnd f (some n) = f.pos + min n (f.content_length - f.pos) := by
      simp only [readEnd]; omega
    rw [hE]
    have hA : f.pos + min n (f.content_length - f.pos) - f.pos
        = min n (f.content_length - f.pos) := by omega
    rw [hA]
  · rw [read_eq f hcl]
    have hE : readEnd f none = f.content_length := rfl
    rw [hE]
    have hA : f.content_length - f.pos = f.content_length - f.pos := rfl
    have hB : f.pos + (f.content_length - f.pos) = f.content_length := by omega
    rw [hB]
  · rw [read_eq g hgcl]
    have hE : readEnd g (some n) = g.pos := by
      simp only [readEnd]; omega
    rw [hE]
    have hA : g.pos - g.pos = 0 := by omega
    rw [hA]
    have hB : g.pos + 0 = g.pos := by omega
    rw [hB]

/-- Witness for C6 at a concrete handle: size 4, cursor 2, `read 10`
returns 2 bytes; `read` to end returns 2 bytes; reading at end of a
size-7 object returns 0 bytes. -/
theorem read_clamps_and_advances_witness :
    ObjectInputFile.read ⟨4, false, 2⟩ (some 10) = Except.ok
      { file := ⟨4, false, 4⟩, fetchStart := 2, fetchEnd := 4, nbytes := 2 } ∧
    ObjectInputFile.read ⟨4, false, 2⟩ none = Except.ok
      { file := ⟨4, false, 4⟩, fetchStart := 2, fetchEnd := 4, nbytes := 2 } ∧
    ObjectInputFile.read ⟨7, false, 7⟩ (some 10) = Except.ok
      { file := ⟨7, false, 7⟩, fetchStart := 7, fetchEnd := 7, nbytes := 0 } := by
  have h := read_clamps_and_advances ⟨4, false, 2⟩ ⟨7, false, 7⟩ 10
    rfl (by decide) (by decide) (by decide) rfl rfl
  simpa using h

/-- State of `ObjectOutputStream` (fields `store`, `path` and `writer`
are modelled separately: the writer's and store's behaviour is an
oracle, `WriterEnv`). -/
structure OutStream where
  multipart_id : String
  pos : Int
  closed : Bool
  mode : String
deriving DecidableEq, Repr

/-- Outcomes of the underlying async writer / store calls made by
`ObjectOutputStream`: `writer.write_all`, `writer.flush`,
`writer.shutdown` (each failing with an `std::io::Error`, modelled by its
message) and `store.abort_multipart` (failing with an
`ObjectStoreError`, likewise modelled by its message). -/
structure WriterEnv where
  writeRes : Except String Unit
  flushRes : Except String Unit
  shutdownRes : Except String Unit
  abortRes : Except String Unit

/-- Backend calls an `ObjectOutputStream` method can issue, in order. -/
inductive StoreCall where
  | writeAll
  | flushW
  | shutdown
  | abort
deriving DecidableEq, Repr

/-- `ObjectOutputStream::check_closed`. -/
def OutStream.check_closed (s : OutStream) : Except PyErr Unit :=
  if s.closed then Except.error (PyErr.ioError ("Operation on closed stream"))
  else Except.ok ()

/-- `ObjectOutputStream::write`: after the closed check, runs
`writer.write_all`; on success returns the input length; on failure runs
`store.abort_multipart` and — exactly as the Rust `?` operator does —
returns the abort error if the abort itself failed, otherwise the
original write error.  Also returns the trace of backend calls issued. -/
def OutStream.write (s : OutStream) (env : WriterEnv) (len : Int) :
    List StoreCall × Except PyErr (OutStream × Int) :=
  match s.check_closed with
  | Except.error e => ([], Except.error e)
  | Except.ok _ =>
    match env.writeRes with
    | Except.ok _ => ([StoreCall.writeAll], Except.ok (s, len))
    | Except.error err =>
      match env.abortRes with
      | Except.ok _ =>
          ([StoreCall.writeAll, StoreCall.abort], Except.error (PyErr.deltaIo err))
      | Except.error aerr =>
          ([StoreCall.writeAll, StoreCall.abort], Except.error (PyErr.deltaStore aerr))

/-- `ObjectOutputStream::flush`: note the Rust issues no closed check
here; otherwise the same failure handling as `write`. -/
def OutStream.flush (s : OutStream) (env : WriterEnv) :
    List StoreCall × Except PyErr Unit :=
  match env.flushRes with
  | Except.ok _ => ([StoreCall.flushW], Except.ok ())
  | Except.error err =>
    match env.abortRes with
    | Except.ok _ =>
        ([StoreCall.flushW, StoreCall.abort], Except.error (PyErr.deltaIo err))
    | Except.error aerr =>
        ([StoreCall.flushW, StoreCall.abort], Except.error (PyErr.deltaStore aerr))

/-- `ObjectOutputStream::close`: sets `closed` unconditionally (no
`check_closed` call), then runs `writer.shutdown`; on failure runs
`store.abort_multipart` with the same error handling as `write`. -/
def OutStream.close (s : OutStream) (env : WriterEnv) :
    List StoreCall × Except PyErr OutStream :=
  let s' := { s with closed := true }
  match env.shutdownRes with
  | Except.ok _ => ([StoreCall.shutdown], Except.ok s')
  | Except.error err =>
    match env.abortRes with
    | Except.ok _ =>
        ([StoreCall.shutdown, StoreCall.abort], Except.error (PyErr.deltaIo err))
    | Except.error aerr =>
        ([StoreCall.shutdown, StoreCall.abort], Except.error (PyErr.deltaStore aerr))

/-- The error an output-stream method surfaces after a failed writer
call with message `e`, given the abort call's outcome: the original
error if the abort succeeded, the abort's own error otherwise (the
original is then lost). -/
def abortThen (abortRes : Except String Unit) (e : String) : PyErr :=
  match abortRes with
  | Except.ok _ => PyErr.deltaIo e
  | Except.error aerr => PyErr.deltaStore aerr

/-- Concrete oracle for the C2 counterexample: the writer call fails and
the subsequent abort call fails too. -/
def envBothFail : WriterEnv :=
  { writeRes := Except.error ("write failed")
    flushRes := Except.error ("flush failed")
    shutdownRes := Except.error ("shutdown failed")
    abortRes := Except.error ("abort failed") }

/-- Extract the message carried by a `PyErr`. -/
def PyErr.msg : PyErr → String
  | PyErr.ioError m => m
  | PyErr.valueError m => m
  | PyErr.deltaIo m => m
  | PyErr.deltaStore m => m

/-- C2 counterexample: on an open stream whose `write_all` fails with
"write failed" and whose `abort_multipart` fails with "abort failed",
`write` returns the abort error only — the original writer error is
lost, contradicting the claim that the returned error reflects at
minimum the original failure. -/
theorem write_abort_failure_shadows_original :
    (OutStream.write ⟨("mp"), 0, false, ("wb")⟩ envBothFail 2).2 =
      Except.error (PyErr.deltaStore ("abort failed")) ∧
    PyErr.msg (PyErr.deltaStore ("abort failed")) ≠ ("write failed") := by
  refine ⟨rfl, by decide⟩

/-- C2 amended: for each of `write`, `flush` and `close`, when the
underlying writer call fails, a best-effort multipart abort is issued
before any error is surfaced, and the surfaced error is the original
writer error when the abort succeeds — but the abort's own error
(losing the original) when the abort fails, as computed by `abortThen`. -/
theorem write_flush_close_abort_surfaces (s : OutStream) (env : WriterEnv) (len : Int)
    (ew ef es : String)
    (hcl : s.closed = false)
    (hw : env.writeRes = Except.error ew)
    (hf : env.flushRes = Except.error ef)
    (hs : env.shutdownRes = Except.error es) :
    (StoreCall.abort ∈ (s.write env len).1 ∧
      (s.write env len).2 = Except.error (abortThen env.abortRes ew)) ∧
    (StoreCall.abort ∈ (s.flush env).1 ∧
      (s.flush env).2 = Except.error (abortThen env.abortRes ef)) ∧
    (StoreCall.abort ∈ (s.close env).1 ∧
      (s.close env).2 = Except.error (abortThen env.abortRes es)) := by
  cases habort : env.abortRes <;>
    simp [OutStream.write, OutStream.flush, OutStream.close, OutStream.check_closed,
      hcl, hw, hf, hs, habort, abortThen]

/-- Witness for C2-amended: all writer calls fail, abort succeeds; each
method issues the abort and surfaces the original error. -/
theorem write_flush_close_abort_surfaces_witness :
    (StoreCall.abort ∈ (OutStream.write ⟨("mp"), 0, false, ("wb")⟩
        ⟨Except.error ("w"), Except.error ("f"), Except.error ("s"), Except.ok ()⟩ 2).1 ∧
      (OutStream.write ⟨("mp"), 0, false, ("wb")⟩
        ⟨Except.error ("w"), Except.error ("f"), Except.error ("s"), Except.ok ()⟩ 2).2 =
        Except.error (abortThen (Except.ok ()) ("w"))) ∧
    (StoreCall.abort ∈ (OutStream.flush ⟨("mp"), 0, false, ("wb")⟩
        ⟨Except.error ("w"), Except.error ("f"), Except.error ("s"), Except.ok ()⟩).1 ∧
      (OutStream.flush ⟨("mp"), 0, false, ("wb")⟩
        ⟨Except.error ("w"), Except.error ("f"), Except.error ("s"), Except.ok ()⟩).2 =
        Except.error (abortThen (Except.ok ()) ("f"))) ∧
    (StoreCall.abort ∈ (OutStream.close ⟨("mp"), 0, false, ("wb")⟩
        ⟨Except.error ("w"), Except.error ("f"), Except.error ("s"), Except.ok ()⟩).1 ∧
      (OutStream.close ⟨("mp"), 0, false, ("wb")⟩
        ⟨Except.error ("w"), Except.error ("f"), Except.error ("s"), Except.ok ()⟩).2 =
        Except.error (abortThen (Except.ok ()) ("s"))) :=
  write_flush_close_abort_surfaces ⟨("mp"), 0, false, ("wb")⟩
    ⟨Except.error ("w"), Except.error ("f"), Except.error ("s"), Except.ok ()⟩ 2
    ("w") ("f") ("s") rfl rfl rfl rfl

/-- Concrete oracle in which every underlying call succeeds. -/
def envAllOk : WriterEnv :=
  { writeRes := Except.ok ()
    flushRes := Except.ok ()
    shutdownRes := Except.ok ()
    abortRes := Except.ok () }

/-- C7 counterexample: the claim says a second `close` after a
successful `close` is a no-op that does not re-run finalization.  In the
code `close` never consults the `closed` flag: after the first `close`
succeeds (leaving `closed = true`), a second `close` on the resulting
stream again issues `writer.shutdown` — its call trace is
`[shutdown]`, not the empty trace a no-op would produce. -/
theorem close_after_success_reruns_finalization :
    OutStream.close ⟨("mp"), 0, false, ("wb")⟩ envAllOk =
      ([StoreCall.shutdown], Except.ok ⟨("mp"), 0, true, ("wb")⟩) ∧
    (OutStream.close ⟨("mp"), 0, true, ("wb")⟩ envAllOk).1 = [StoreCall.shutdown] := by
  refine ⟨rfl, rfl⟩

/-- C7 amended: `close` never checks the `closed` flag.  On every call —
whatever the flag's value, hence also after a previous successful close
or after an abort — it sets `closed` and re-invokes `writer.shutdown`
(stream `s`, oracle `okEnv` with succeeding shutdown); and when the
shutdown inside `close` fails (stream `t`, oracle `failEnv`), the
multipart abort is issued and the shutdown failure is surfaced when the
abort succeeds (abort-failure shadowing as in `abortThen`). -/
theorem close_always_invokes_shutdown (s t : OutStream) (okEnv failEnv : WriterEnv)
    (e : String)
    (hok : okEnv.shutdownRes = Except.ok ())
    (hfail : failEnv.shutdownRes = Except.error e) :
    OutStream.close s okEnv =
      ([StoreCall.shutdown], Except.ok { s with closed := true }) ∧
    (OutStream.close t failEnv).1 = [StoreCall.shutdown, StoreCall.abort] ∧
    (OutStream.close t failEnv).2 = Except.error (abortThen failEnv.abortRes e) := by
  refine ⟨?_, ?_⟩
  · simp [OutStream.close, hok]
  · cases habort : failEnv.abortRes <;>
      simp [OutStream.close, hfail, habort, abortThen]

/-- Witness for C7-amended: closing an ALREADY-CLOSED stream still runs
shutdown and succeeds; a close whose shutdown fails aborts the multipart
session and surfaces the shutdown error. -/
theorem close_always_invokes_shutdown_witness :
    OutStream.close ⟨("mp"), 7, true, ("wb")⟩ envAllOk =
      ([StoreCall.shutdown], Except.ok { (⟨("mp"), 7, true, ("wb")⟩ : OutStream) with closed := true }) ∧
    (OutStream.close ⟨("mp"), 0, false, ("wb")⟩
      ⟨Except.ok (), Except.ok (), Except.error ("shutdown failed"), Except.ok ()⟩).1 =
      [StoreCall.shutdown, StoreCall.abort] ∧
    (OutStream.close ⟨("mp"), 0, false, ("wb")⟩
      ⟨Except.ok (), Except.ok (), Except.error ("shutdown failed"), Except.ok ()⟩).2 =
      Except.error (abortThen (Except.ok ()) ("shutdown failed")) :=
  close_always_invokes_shutdown ⟨("mp"), 7, true, ("wb")⟩ ⟨("mp"), 0, false, ("wb")⟩
    envAllOk ⟨Except.ok (), Except.ok (), Except.error ("shutdown failed"), Except.ok ()⟩
    ("shutdown failed") rfl rfl

/-- `ObjectOutputStream::try_new`: calls `store.put_multipart(&path)` and
UNWRAPS the result: on `Ok (multipart_id, writer)` it returns the fresh
stream (`pos = 0`, `closed = false`, `mode = "wb"`) wrapped in `Ok`; on
`Err` the `unwrap()` panics, modelled by `none` — the function's own
error branch is never produced. -/
def ObjectOutputStream_try_new (res : Except StoreErr (String × WriterEnv)) :
    Option (Except StoreErr (OutStream × WriterEnv)) :=
  match res with
  | Except.error _ => none
  | Except.ok (mid, w) => some (Except.ok (⟨mid, 0, false, ("wb")⟩, w))

/-- C10: constructing a `WriteStream` unwraps `put_multipart`: when the
multipart-creation call fails, construction panics (`none`) instead of
returning the backend error, and on success it returns `Ok`; hence the
`Err` branch of `try_new` is never taken — for every outcome `res`, the
result is either a panic or a success, never `some (Except.error _)`. -/
theorem try_new_unwraps_put_multipart (e : StoreErr) (mid : String) (w : WriterEnv)
    (res : Except StoreErr (String × WriterEnv)) :
    ObjectOutputStream_try_new (Except.error e) = none ∧
    ObjectOutputStream_try_new (Except.ok (mid, w)) =
      some (Except.ok (⟨mid, 0, false, ("wb")⟩, w)) ∧
    (ObjectOutputStream_try_new res = none ∨
      ∃ out, ObjectOutputStream_try_new res = some (Except.ok out)) := by
  refine ⟨rfl, rfl, ?_⟩
  match res with
  | Except.error _ => exact Or.inl rfl
  | Except.ok (a, b) => exact Or.inr ⟨(⟨a, 0, false, ("wb")⟩, b), rfl⟩

/-- Witness for C10 at concrete inputs. -/
theorem try_new_unwraps_put_multipart_witness :
    ObjectOutputStream_try_new (Except.error (StoreErr.other ("multipart refused"))) = none ∧
    ObjectOutputStream_try_new (Except.ok (("mp-1"), envAllOk)) =
      some (Except.ok (⟨("mp-1"), 0, false, ("wb")⟩, envAllOk)) ∧
    (ObjectOutputStream_try_new (Except.error (StoreErr.other ("multipart refused"))) = none ∨
      ∃ out, ObjectOutputStream_try_new (Except.error (StoreErr.other ("multipart refused"))) =
        some (Except.ok out)) :=
  try_new_unwraps_put_multipart (StoreErr.other ("multipart refused")) ("mp-1") envAllOk
    (Except.error (StoreErr.other ("multipart refused")))

/-- `ObjectMeta` as used by the handler: `last_modified` is carried as
`timestamp_nanos()` (nanoseconds since epoch), the value the Rust puts
into the `mtime_ns` kwarg. -/
structure ObjectMeta where
  location : String
  size : Int
  last_modified_ns : Int
deriving DecidableEq, Repr

/-- `ListResult` of a delimiter-bounded listing. -/
structure ListResult where
  common_prefixes : List String
  objects : List ObjectMeta
deriving DecidableEq, Repr

/-- The `pyarrow.fs.FileType` values the handler produces. -/
inductive FileType where
  | file
  | directory
  | notFoundType
deriving DecidableEq, Repr

/-- The `pyarrow.fs.FileInfo` record the handler constructs: location,
type, and the `size` / `mtime_ns` kwargs when present. -/
structure FileInfo where
  location : String
  type : FileType
  size : Option Int
  mtime_ns : Option Int
deriving DecidableEq, Repr

/-- The object store behind `DeltaFileSystemHandler`, restricted to the
two calls `get_file_info` makes.  Each call's outcome is a function of
the path. -/
structure Store where
  list_with_delimiter : String → Except StoreErr ListResult
  head : String → Except StoreErr ObjectMeta

/-- The body of the per-path loop of
`DeltaFileSystemHandler::get_file_info`: a delimiter listing at the
path; if it is completely empty, a head lookup (`NotFound` becoming a
`NotFound` file info, other failures propagating); otherwise a
`Directory` info, with no head lookup at all. -/
def get_file_info_one (store : Store) (file_path : String) : Except StoreErr FileInfo :=
  match store.list_with_delimiter file_path with
  | Except.error e => Except.error e
  | Except.ok listed =>
    if listed.objects.isEmpty && listed.common_prefixes.isEmpty then
      match store.head file_path with
      | Except.ok meta =>
          Except.ok { location := meta.location, type := FileType.file,
                      size := some meta.size, mtime_ns := some meta.last_modified_ns }
      | Except.error (StoreErr.notFound _) =>
          Except.ok { location := file_path, type := FileType.notFoundType,
                      size := none, mtime_ns := none }
      | Except.error e => Except.error e
    else
      Except.ok { location := file_path, type := FileType.directory,
                  size := none, mtime_ns := none }

/-- `DeltaFileSystemHandler::get_file_info`: the loop over the paths,
aborting at the first error. -/
def get_file_info (store : Store) : List String → Except StoreErr (List FileInfo)
  | [] => Except.ok []
  | p :: rest =>
    match get_file_info_one store p with
    | Except.error e => Except.error e
    | Except.ok info =>
      match get_file_info store rest with
      | Except.error e => Except.error e
      | Except.ok infos => Except.ok (info :: infos)

/-- C3: `stat` behaviour of `get_file_info`, for every store and path.
Store `st1`: empty delimiter listing and a successful head → `File` info
from the head metadata.  Store `st2`: empty listing and a `NotFound`
head → a `NotFound` file info, not an error.  Store `st3`: empty listing
and any other head failure → that failure propagates.  Store `st4`: a
non-empty listing → `Directory`, with NO constraint on `st4.head` — in
particular the result is `Directory` even when an object with exactly
that key also exists (the witness instantiates `st4.head p` with a
successful head at `p`). -/
theorem get_file_info_stat_cases (st1 st2 st3 st4 : Store) (p q m : String)
    (meta : ObjectMeta) (l4 : ListResult)
    (h1l : st1.list_with_delimiter p = Except.ok ⟨[], []⟩)
    (h1h : st1.head p = Except.ok meta)
    (h2l : st2.list_with_delimiter p = Except.ok ⟨[], []⟩)
    (h2h : st2.head p = Except.error (StoreErr.notFound q))
    (h3l : st3.list_with_delimiter p = Except.ok ⟨[], []⟩)
    (h3h : st3.head p = Except.error (StoreErr.other m))
    (h4l : st4.list_with_delimiter p = Except.ok l4)
    (h4ne : l4.objects ≠ [] ∨ l4.common_prefixes ≠ []) :
    get_file_info st1 [p] = Except.ok
      [{ location := meta.location, type := FileType.file,
         size := some meta.size, mtime_ns := some meta.last_modified_ns }] ∧
    get_file_info st2 [p] = Except.ok
      [{ location := p, type := FileType.notFoundType, size := none, mtime_ns := none }] ∧
    get_file_info st3 [p] = Except.error (StoreErr.other m) ∧
    get_file_info st4 [p] = Except.ok
      [{ location := p, type := FileType.directory, size := none, mtime_ns := none }] := by
  refine ⟨?_, ?_, ?_, ?_⟩
  · simp [get_file_info, get_file_info_one, h1l, h1h]
  · simp [get_file_info, get_file_info_one, h2l, h2h]
  · simp [get_file_info, get_file_info_one, h3l, h3h]
  · have hne : (l4.objects.isEmpty && l4.common_prefixes.isEmpty) = false := by
      rcases h4ne with h | h <;> cases l4 <;>
        simp_all [List.isEmpty_iff, Bool.and_eq_false_iff]
    simp [get_file_info, get_file_info_one, h4l, hne]

/-- Witness for C3 with concrete stores over a two-key namespace; in the
directory case the store also holds an object at exactly the queried key
`"a"`, and the result is still `Directory`. -/
theorem get_file_info_stat_cases_witness :
    get_file_info
      ⟨fun _ => Except.ok ⟨[], []⟩, fun _ => Except.ok ⟨("a"), 3, 11⟩⟩ [("a")] = Except.ok
      [{ location := ("a"), type := FileType.file, size := some 3, mtime_ns := some 11 }] ∧
    get_file_info
      ⟨fun _ => Except.ok ⟨[], []⟩, fun px => Except.error (StoreErr.notFound px)⟩ [("a")] =
      Except.ok
      [{ location := ("a"), type := FileType.notFoundType, size := none, mtime_ns := none }] ∧
    get_file_info
      ⟨fun _ => Except.ok ⟨[], []⟩, fun _ => Except.error (StoreErr.other ("timeout"))⟩ [("a")] =
      Except.error (StoreErr.other ("timeout")) ∧
    get_file_info
      ⟨fun _ => Except.ok ⟨[("a/b")], [⟨("a"), 3, 11⟩]⟩, fun _ => Except.ok ⟨("a"), 3, 11⟩⟩
      [("a")] = Except.ok
      [{ location := ("a"), type := FileType.directory, size := none, mtime_ns := none }] :=
  get_file_info_stat_cases
    ⟨fun _ => Except.ok ⟨[], []⟩, fun _ => Except.ok ⟨("a"), 3, 11⟩⟩
    ⟨fun _ => Except.ok ⟨[], []⟩, fun px => Except.error (StoreErr.notFound px)⟩
    ⟨fun _ => Except.ok ⟨[], []⟩, fun _ => Except.error (StoreErr.other ("timeout"))⟩
    ⟨fun _ => Except.ok ⟨[("a/b")], [⟨("a"), 3, 11⟩]⟩, fun _ => Except.ok ⟨("a"), 3, 11⟩⟩
    ("a") ("a") ("timeout") ⟨("a"), 3, 11⟩ ⟨[("a/b")], [⟨("a"), 3, 11⟩]⟩
    rfl rfl rfl rfl rfl rfl rfl (Or.inl (by simp))

/-- The `FileInfo` built by `get_file_info_selector` for a common
prefix. -/
def dirInfo (p : String) : FileInfo :=
  { location := p, type := FileType.directory, size := none, mtime_ns := none }

/-- The `FileInfo` built by `get_file_info_selector` for an object. -/
def fileInfo (meta : ObjectMeta) : FileInfo :=
  { location := meta.location, type := FileType.file,
    size := some meta.size, mtime_ns := some meta.last_modified_ns }

/-- `DeltaFileSystemHandler::get_file_info_selector`.  `walk` is the
`walk_tree(store, path, recursive)` call of `crate::utils` (its code is
outside this file), taken as an opaque parameter; the embedded function
is exactly the error handling and result mapping around it: a `NotFound`
walk failure becomes an empty `ListResult` when `allow_not_found` is
set and propagates otherwise, any other failure propagates, and a
successful listing is mapped to `Directory` infos for the common
prefixes followed by `File` infos for the objects. -/
def get_file_info_selector (walk : String → Bool → Except StoreErr ListResult)
    (base_dir : String) (allow_not_found recursive : Bool) :
    Except StoreErr (List FileInfo) :=
  let list_result : Except StoreErr ListResult :=
    match walk base_dir recursive with
    | Except.ok res => Except.ok res
    | Except.error (StoreErr.notFound p) =>
        if allow_not_found then Except.ok { common_prefixes := [], objects := [] }
        else Except.error (StoreErr.notFound p)
    | Except.error err => Except.error err
  match list_result with
  | Except.error e => Except.error e
  | Except.ok lr =>
      Except.ok (lr.common_prefixes.map dirInfo ++ lr.objects.map fileInfo)

/-- C8: for every base path, recursion flag and walker: a successful
walk is mapped to its file infos; a `NotFound` walk failure yields the
empty result when `allow_not_found` is set and propagates as `NotFound`
otherwise; any other walk failure propagates for either flag value. -/
theorem selector_not_found_policy
    (w1 w2 w3 : String → Bool → Except StoreErr ListResult)
    (b p m : String) (recursive a1 a3 : Bool) (res : ListResult)
    (h1 : w1 b recursive = Except.ok res)
    (h2 : w2 b recursive = Except.error (StoreErr.notFound p))
    (h3 : w3 b recursive = Except.error (StoreErr.other m)) :
    get_file_info_selector w1 b a1 recursive =
      Except.ok (res.common_prefixes.map dirInfo ++ res.objects.map fileInfo) ∧
    get_file_info_selector w2 b true recursive = Except.ok [] ∧
    get_file_info_selector w2 b false recursive = Except.error (StoreErr.notFound p) ∧
    get_file_info_selector w3 b a3 recursive = Except.error (StoreErr.other m) := by
  refine ⟨?_, ?_, ?_, ?_⟩ <;>
    simp [get_file_info_selector, h1, h2, h3]

/-- Witness for C8: a walker with one object and one prefix under
`"base"`, one that reports `NotFound`, and one that fails generically. -/
theorem selector_not_found_policy_witness :
    get_file_info_selector (fun _ _ => Except.ok ⟨[("base/d")], [⟨("base/x"), 5, 99⟩]⟩)
      ("base") true true =
      Except.ok ((⟨[("base/d")], [⟨("base/x"), 5, 99⟩]⟩ : ListResult).common_prefixes.map dirInfo
        ++ (⟨[("base/d")], [⟨("base/x"), 5, 99⟩]⟩ : ListResult).objects.map fileInfo) ∧
    get_file_info_selector (fun bb _ => Except.error (StoreErr.notFound bb)) ("base") true true =
      Except.ok [] ∧
    get_file_info_selector (fun bb _ => Except.error (StoreErr.notFound bb)) ("base") false true =
      Except.error (StoreErr.notFound ("base")) ∧
    get_file_info_selector (fun _ _ => Except.error (StoreErr.other ("boom"))) ("base") false true =
      Except.error (StoreErr.other ("boom")) :=
  selector_not_found_policy
    (fun _ _ => Except.ok ⟨[("base/d")], [⟨("base/x"), 5, 99⟩]⟩)
    (fun bb _ => Except.error (StoreErr.notFound bb))
    (fun _ _ => Except.error (StoreErr.other ("boom")))
    ("base") ("base") ("boom") true true false ⟨[("base/d")], [⟨("base/x"), 5, 99⟩]⟩
    rfl rfl rfl

/-- The foreign (`pyarrow.fs`) `FileInfo` record consumed by
`WrappedPyArrowStore::head`: `mtime` is whole seconds since epoch,
`mtime_ns` nanoseconds since epoch; each may be absent. -/
structure PyFileInfo where
  path : String
  size : Int
  mtime : Option Int
  mtime_ns : Option Int
deriving DecidableEq, Repr

/-- `DateTime::from_utc(NaiveDateTime::from_timestamp(secs, nsecs), Utc)`
viewed as total nanoseconds since the epoch. -/
def fromTimestamp (secs nsecs : Int) : Int := secs * 1000000000 + nsecs

/-- The `last_modified` computation inside `WrappedPyArrowStore::head`,
as nanoseconds since the epoch: when the foreign info has no `mtime_ns`,
it extracts whole-second `mtime` (absent `mtime` makes the Python
attribute extraction fail, modelled by `none`); when `mtime_ns` is
present, the Rust computes `seconds = mtime_ns / 1_000_000` and
`nanoseconds = mtime_ns % 1_000_000` (truncating `i64` division,
`Int.tdiv`/`Int.tmod`) and feeds both to the timestamp constructor. -/
def head_last_modified (info : PyFileInfo) : Option Int :=
  match info.mtime_ns with
  | none => info.mtime.map (fun m => fromTimestamp m 0)
  | some ns => some (fromTimestamp (Int.tdiv ns 1000000) (Int.tmod ns 1000000))

/-- The `ObjectMeta` produced by `WrappedPyArrowStore::head`. -/
def wrapped_store_head (info : PyFileInfo) : Option ObjectMeta :=
  (head_last_modified info).map
    (fun ts => { location := info.path, size := info.size, last_modified_ns := ts })

/-- C4: the claim says a reported `mtime_ns` maps to exactly that many
nanoseconds since the epoch (seconds = `mtime_ns / 1e9`).  The code
divides by `1_000_000` instead: for `mtime_ns = 1_000_000_000`
(one second past the epoch) it produces a timestamp of 1000 seconds
(`10^12` ns), a thousand-fold error, while the whole-second branch
(`mtime = 7` → `7·10^9` ns) is exact as claimed.  This contradicts the
field's own meaning as used at `get_file_info` (`timestamp_nanos`). -/
theorem wrapped_head_mtime_mapping :
    head_last_modified { path := ("f"), size := 3, mtime := none,
                         mtime_ns := some 1000000000 } = some 1000000000000 ∧
    (1000000000000 : Int) ≠ 1000000000 ∧
    head_last_modified { path := ("f"), size := 3, mtime := some 7,
                         mtime_ns := none } = some (7 * 1000000000) := by
  refine ⟨rfl, by decide, rfl⟩

/-- Split a character list at every slash, mirroring `str::split('/')`:
`splitSegs l` is the list of (possibly empty) segments. -/
def splitSegs : List Char → List (List Char)
  | [] => [[]]
  | c :: rest =>
    if c = '/' then [] :: splitSegs rest
    else
      match splitSegs rest with
      | [] => [[c]]
      | s :: ss => (c :: s) :: ss

/-- Serialize segments with a slash separator (the `Display` of a parsed
path). -/
def joinSegs : List (List Char) → List Char
  | [] => []
  | [s] => s
  | s :: rest => s ++ '/' :: joinSegs rest

/-- Remove one leading slash if present (`strip_prefix('/')`). -/
def stripLead : List Char → List Char
  | [] => []
  | c :: rest => if c = '/' then rest else c :: rest

/-- Remove one trailing slash if present (`strip_suffix('/')`). -/
def stripTrail (l : List Char) : List Char :=
  if l.getLast? = some '/' then l.dropLast else l

/-- A segment a well-formed path may contain: nonempty and neither `.`
nor `..`. -/
def goodSeg (s : List Char) : Bool :=
  !s.isEmpty && !(s = ['.'] : Bool) && !(s = ['.', '.'] : Bool)

/-- Modelled from the spec: `Path::parse` of the storage layer (its code
lives outside this repository's sources; §3 of the spec makes a path "a
normalized, slash-separated key with no leading slash", with malformed
input failing).  One leading and one trailing slash are tolerated and
stripped; the remainder splits at slashes into segments, and a segment
that is empty, `.` or `..` makes the input malformed (`none`). -/
def parseSegs (l : List Char) : Option (List (List Char)) :=
  let stripped := stripTrail (stripLead l)
  if stripped.isEmpty then some []
  else if (splitSegs stripped).all goodSeg then some (splitSegs stripped) else none

/-- `DeltaFileSystemHandler::normalize_path` on character lists: records
whether the input ends with a slash, parses, and re-serializes with the
suffix appended.  The Rust calls `.unwrap()` on the parse result, so a
malformed input PANICS, modelled by `none`; no error value is ever
returned to the caller. -/
def normalizeL (p : List Char) : Option (List Char) :=
  let sfx : List Char := if p.getLast? = some '/' then ['/'] else []
  (parseSegs p).map (fun segs => joinSegs segs ++ sfx)

/-- `DeltaFileSystemHandler::normalize_path`. -/
def normalize_path (p : String) : Option String :=
  (normalizeL p.data).map (fun l => String.mk l)

theorem splitSegs_ne_nil (l : List Char) : splitSegs l ≠ [] := by
  induction l with
  | nil => simp [splitSegs]
  | cons c rest ih =>
    simp only [splitSegs]
    split
    · simp
    · cases h : splitSegs rest <;> simp

theorem mem_splitSegs_no_slash (l : List Char) :
    ∀ s ∈ splitSegs l, '/' ∉ s := by
  induction l with
  | nil =>
    intro s hs
    simp [splitSegs] at hs
    simp [hs]
  | cons c rest ih =>
    intro s hs
    simp only [splitSegs] at hs
    by_cases hc : c = '/'
    · simp [hc] at hs
      rcases hs with h | h
      · simp [h]
      · exact ih s h
    · simp only [if_neg hc] at hs
      cases h : splitSegs rest with
      | nil => exact absurd h (splitSegs_ne_nil rest)
      | cons s0 ss =>
        rw [h] at hs
        rcases List.mem_cons.mp hs with h1 | h1
        · subst h1
          intro hmem
          rcases List.mem_cons.mp hmem with h2 | h2
          · exact hc h2.symm
          · exact ih s0 (h ▸ List.mem_cons_self s0 ss) h2
        · exact ih s (h ▸ List.mem_cons_of_mem s0 h1)

theorem splitSegs_no_slash_eq (s : List Char) (h : '/' ∉ s) : splitSegs s = [s] := by
  induction s with
  | nil => simp [splitSegs]
  | cons c rest ih =>
    have hc : ¬(c = '/') := fun hcc => h (hcc ▸ List.mem_cons_self c rest)
    have hr : '/' ∉ rest := fun hm => h (List.mem_cons_of_mem c hm)
    simp only [splitSegs, if_neg hc, ih hr]

theorem splitSegs_append (s t : List Char) (h : '/' ∉ s) :
    splitSegs (s ++ '/' :: t) = s :: splitSegs t := by
  induction s with
  | nil => simp [splitSegs]
  | cons c rest ih =>
    have hc : ¬(c = '/') := fun hcc => h (hcc ▸ List.mem_cons_self c rest)
    have hr : '/' ∉ rest := fun hm => h (List.mem_cons_of_mem c hm)
    simp only [List.cons_append, splitSegs, if_neg hc, List.append_eq, ih hr]

theorem join_split (segs : List (List Char)) (hne : segs ≠ [])
    (h : ∀ s ∈ segs, '/' ∉ s) : splitSegs (joinSegs segs) = segs := by
  induction segs with
  | nil => exact absurd rfl hne
  | cons s rest ih =>
    cases rest with
    | nil =>
      simp only [joinSegs]
      exact splitSegs_no_slash_eq s (h s (List.mem_cons_self s []))
    | cons s2 r =>
      have hjoin : joinSegs (s :: s2 :: r) = s ++ '/' :: joinSegs (s2 :: r) := rfl
      rw [hjoin, splitSegs_append s (joinSegs (s2 :: r)) (h s (List.mem_cons_self s (s2 :: r)))]
      rw [ih (by simp) (fun x hx => h x (List.mem_cons_of_mem s hx))]

theorem joinSegs_ne_nil (segs : List (List Char)) (hne : segs ≠ [])
    (h : ∀ s ∈ segs, s ≠ []) : joinSegs segs ≠ [] := by
  cases segs with
  | nil => exact absurd rfl hne
  | cons s rest =>
    cases rest with
    | nil => exact h s (List.mem_cons_self s [])
    | cons s2 r =>
      have hj : joinSegs (s :: s2 :: r) = s ++ '/' :: joinSegs (s2 :: r) := rfl
      rw [hj]
      simp

theorem joinSegs_head (c : Char) (s' : List Char) (rest : List (List Char)) :
    ∃ t, joinSegs ((c :: s') :: rest) = c :: t := by
  cases rest with
  | nil => exact ⟨s', rfl⟩
  | cons s2 r => exact ⟨s' ++ '/' :: joinSegs (s2 :: r), rfl⟩

theorem joinSegs_getLast_ne (segs : List (List Char)) (hne : segs ≠ [])
    (h : ∀ s ∈ segs, s ≠ [] ∧ '/' ∉ s) : (joinSegs segs).getLast? ≠ some '/' := by
  induction segs with
  | nil => exact absurd rfl hne
  | cons s rest ih =>
    cases rest with
    | nil =>
      simp only [joinSegs]
      intro hlast
      exact (h s (List.mem_cons_self s [])).2 (List.mem_of_getLast?_eq_some hlast)
    | cons s2 r =>
      have hj : joinSegs (s :: s2 :: r) = s ++ '/' :: joinSegs (s2 :: r) := rfl
      rw [hj, List.getLast?_append_cons]
      have hjoin_ne : joinSegs (s2 :: r) ≠ [] :=
        joinSegs_ne_nil (s2 :: r) (by simp)
          (fun x hx => (h x (List.mem_cons_of_mem s hx)).1)
      cases hcase : joinSegs (s2 :: r) with
      | nil => exact absurd hcase hjoin_ne
      | cons y ys =>
        rw [List.getLast?_cons_cons, ← hcase]
        exact ih (by simp) (fun x hx => h x (List.mem_cons_of_mem s hx))

theorem stripLead_of_head_ne (c : Char) (t : List Char) (h : ¬(c = '/')) :
    stripLead (c :: t) = c :: t := by
  simp [stripLead, h]

theorem stripTrail_of_getLast_ne (l : List Char) (h : l.getLast? ≠ some '/') :
    stripTrail l = l := by
  simp [stripTrail, h]

theorem stripTrail_append_slash (l : List Char) : stripTrail (l ++ ['/']) = l := by
  simp [stripTrail, List.getLast?_concat, List.dropLast_concat]

theorem goodSeg_ne_nil (s : List Char) (h : goodSeg s = true) : s ≠ [] := by
  intro hs
  subst hs
  simp [goodSeg] at h

theorem normalizeL_idem (p q : List Char) (h : normalizeL p = some q) :
    normalizeL q = some q := by
  simp only [normalizeL, Option.map_eq_some'] at h
  obtain ⟨segs, hparse, hq⟩ := h
  simp only [parseSegs] at hparse
  split_ifs at hparse with h1 h2
  · -- empty stripped input: segs = []
    have hsegs : segs = [] := by
      injection hparse with hh
      exact hh.symm
    subst hsegs
    by_cases hsl : p.getLast? = some '/'
    · have hq' : q = ['/'] := by
        rw [if_pos hsl] at hq
        simpa [joinSegs] using hq.symm
      subst hq'
      rfl
    · have hq' : q = [] := by
        rw [if_neg hsl] at hq
        simpa [joinSegs] using hq.symm
      subst hq'
      rfl
  · -- nonempty stripped input, all segments good
    have hsegs : segs = splitSegs (stripTrail (stripLead p)) := by
      injection hparse with hh
      exact hh.symm
    have hallsegs : segs.all goodSeg = true := by rw [hsegs]; exact h2
    have hgood : ∀ s ∈ segs, goodSeg s = true := List.all_eq_true.mp hallsegs
    have hnos : ∀ s ∈ segs, '/' ∉ s := by
      intro s hs
      exact mem_splitSegs_no_slash (stripTrail (stripLead p)) s (hsegs ▸ hs)
    have hsne : segs ≠ [] := by
      rw [hsegs]
      exact splitSegs_ne_nil (stripTrail (stripLead p))
    have hsegne : ∀ s ∈ segs, s ≠ [] := fun s hs => goodSeg_ne_nil s (hgood s hs)
    have hjne : joinSegs segs ≠ [] := joinSegs_ne_nil segs hsne hsegne
    have hlast : (joinSegs segs).getLast? ≠ some '/' :=
      joinSegs_getLast_ne segs hsne (fun s hs => ⟨hsegne s hs, hnos s hs⟩)
    have hsplit : splitSegs (joinSegs segs) = segs := join_split segs hsne hnos
    obtain ⟨c, t, hj, hc⟩ : ∃ c t, joinSegs segs = c :: t ∧ ¬(c = '/') := by
      cases hsegs0 : segs with
      | nil => exact absurd hsegs0 hsne
      | cons s0 rest =>
        have hs0mem : s0 ∈ segs := by
          rw [hsegs0]
          exact List.mem_cons_self s0 rest
        cases hs0 : s0 with
        | nil => exact (hsegne s0 hs0mem hs0).elim
        | cons c0 s0' =>
          obtain ⟨t0, ht0⟩ := joinSegs_head c0 s0' rest
          refine ⟨c0, t0, ht0, ?_⟩
          · intro hc0
            have hmem : '/' ∈ s0 := by
              rw [hs0, hc0]
              exact List.mem_cons_self '/' s0'
            exact hnos s0 hs0mem hmem
    have hempty : ¬((joinSegs segs).isEmpty = true) := by
      rw [hj]
      simp
    have hparse' : parseSegs (joinSegs segs) = some segs := by
      have hstrip : stripTrail (stripLead (joinSegs segs)) = joinSegs segs := by
        rw [hj, stripLead_of_head_ne c t hc, ← hj, stripTrail_of_getLast_ne _ hlast]
      simp only [parseSegs, hstrip]
      rw [if_neg hempty, hsplit, if_pos hallsegs]
    by_cases hsl : p.getLast? = some '/'
    · rw [if_pos hsl] at hq
      have hql : q.getLast? = some '/' := by
        rw [← hq]
        exact List.getLast?_concat _
      have hqlead : stripLead q = q := by
        rw [← hq, hj, List.cons_append, stripLead_of_head_ne c _ hc, ← List.cons_append, ← hj]
      have hqtrail : stripTrail (stripLead q) = joinSegs segs := by
        rw [hqlead, ← hq]
        exact stripTrail_append_slash _
      have hqempty : ¬(q.isEmpty = true) := by
        rw [← hq, hj]
        simp
      have hparseq : parseSegs q = some segs := by
        have hqe : ¬((stripTrail (stripLead q)).isEmpty = true) := by
          rw [hqtrail]
          exact hempty
        simp only [parseSegs, hqtrail]
        rw [if_neg hempty, hsplit, if_pos hallsegs]
      simp only [normalizeL, hparseq, Option.map_some']
      rw [if_pos hql, hq]
    · rw [if_neg hsl, List.append_nil] at hq
      subst hq
      simp only [normalizeL, hparse', Option.map_some']
      rw [if_neg hlast, List.append_nil]

/-- C9: `normalize_path` is idempotent on every valid path — whenever it
succeeds, applying it again to its own output returns that output
unchanged (the trailing-slash marker included). -/
theorem normalize_path_idempotent (p q : String) (h : normalize_path p = some q) :
    normalize_path q = some q := by
  simp only [normalize_path, Option.map_eq_some'] at h
  obtain ⟨l, hl, hq⟩ := h
  have hdata : q.data = l := by
    rw [← hq]
  rw [normalize_path, hdata, normalizeL_idem p.data l hl, Option.map_some', hq]

/-- Witness for C9: `"/a/b"` normalizes to `"a/b"`, which re-normalizes
to itself. -/
theorem normalize_path_idempotent_witness :
    normalize_path ("a/b") = some ("a/b") :=
  normalize_path_idempotent ("/a/b") ("a/b") rfl

/-- C5: the claim says malformed input fails with an `InvalidPath` error
returned to the caller, without crashing.  The Rust instead calls
`.unwrap()` on the parse result, so the malformed path `"a/../b"` makes
`normalize_path` PANIC (modelled by `none`) — no error value is ever
returned — while a well-formed path with a trailing separator is
re-serialized with the separator preserved. -/
theorem normalize_path_panics_on_malformed :
    normalize_path ("a/../b") = none ∧
    normalize_path ("a//b") = none ∧
    normalize_path ("a/b/") = some ("a/b/") := by
  refine ⟨rfl, rfl, rfl⟩
